import Mathlib

/-!
Verification of the Walleto exchange-sync pipeline.

This file shallowly embeds the trade normalization, aggregation, leverage
resolution and scheduler components of the Walleto backend
(`backend/app/routes/{blofin,binance,bybit,hyperliquid}_sync.py`,
`backend/app/services/{blofin,binance,bybit,hyperliquid}_client.py`,
`backend/app/services/exchange_service.py`,
`backend/app/services/sync_scheduler.py`) and proves properties of the
embedded definitions.

Modelling conventions:
* Python floats are embedded as exact rationals (`ℚ`); the special values
  NaN, +inf and -inf, which only matter for `normalize_numeric_value`, are
  embedded by the dedicated type `PFloat`.
* `round(x, n)` is embedded as exact decimal rounding half-to-even
  (`roundTo`), the idealization of Python rounding.
* Timestamps are kept as their millisecond values (`ℕ`); the ISO-8601
  formatting applied by the code is an injective renaming and is embedded
  by the identity on milliseconds.  `datetime.utcnow()` fallbacks are
  embedded by an explicit `now` parameter.
* Python dicts with optional keys are embedded as structures with `Option`
  fields; `d.get(k, v)` becomes `Option.getD`.
* Python `list.sort` (stable) is embedded by the stable insertion sort
  `pySort`.
-/

attribute [local semireducible] Rat.mul Rat.add Rat.sub Rat.inv Rat.ofScientific

namespace Walleto

/-- Python string slicing `s[:n]` (used for `last_error = str(e)[:500]`). -/
def pyTruncate (s : String) (n : ℕ) : String :=
  String.mk (s.data.take n)

/-- Round a rational to the nearest integer, ties to even
(the idealization of Python `round` on binary floats). -/
def roundHalfEven (x : ℚ) : ℤ :=
  let f := ⌊x⌋
  let r := x - f
  if r < 1/2 then f
  else if 1/2 < r then f + 1
  else if f % 2 = 0 then f else f + 1

/-- Python `round(x, d)`: round to `d` decimal places, ties to even. -/
def roundTo (x : ℚ) (d : ℕ) : ℚ :=
  (roundHalfEven (x * 10 ^ d) : ℚ) / 10 ^ d

/-- A Python float: either a finite value or one of the special values.
Only `normalize_numeric_value` ever observes the special values. -/
inductive PFloat where
  | finite (x : ℚ)
  | nan
  | inf
  | ninf
  deriving DecidableEq

/-- `normalize_numeric_value` from the `*_sync.py` route modules.  The chained
comparison `-1e15 < num < 1e15` is false for NaN and ±inf in Python, so those
inputs are sent to `0` by the first check; the subsequent
`str(num).lower() in ['nan','inf','-inf']` check is unreachable (only finite
values remain) and is therefore not represented. -/
def normalize_numeric_value (value : PFloat) (max_value : ℚ) : ℚ :=
  match value with
  | .nan => 0
  | .inf => 0
  | .ninf => 0
  | .finite num =>
    if ¬(-(10 ^ 15 : ℚ) < num ∧ num < 10 ^ 15) then 0
    else if max_value < |num| then 0
    else num

/-- `normalize_numeric_value` on an already-finite rational. -/
def normQ (x : ℚ) (m : ℚ) : ℚ := normalize_numeric_value (.finite x) m

/-- `normalize_numeric_value(trade.get(k), m)`: `float(None)` is avoided by
the code's `if value is not None else 0.0`, so a missing key normalizes 0. -/
def normOptQ (x : Option ℚ) (m : ℚ) : ℚ := normQ (x.getD 0) m

/-- The local `round_value` helper of `binance_client.py`, `bybit_client.py`
and `hyperliquid_client.py`: range-guard then round. -/
def roundValue (val : ℚ) (d : ℕ) : ℚ :=
  if ¬(-(10 ^ 15 : ℚ) < val ∧ val < 10 ^ 15) then 0
  else roundTo val d

/-- The local `round_value` helper of `blofin_client.py`, which re-checks the
range after rounding. -/
def roundValueB (val : ℚ) (d : ℕ) : ℚ :=
  if ¬(-(10 ^ 15 : ℚ) < val ∧ val < 10 ^ 15) then 0
  else
    let r := roundTo val d
    if ¬(-(10 ^ 15 : ℚ) < r ∧ r < 10 ^ 15) then 0
    else r

/-- Stable insertion: place `x` before the first element it is strictly
below, after all elements with an equal key. -/
def insertStable (lt : α → α → Bool) (x : α) : List α → List α
  | [] => [x]
  | y :: ys => if lt x y then x :: y :: ys else y :: insertStable lt x ys

/-- Python `list.sort(key=...)`: a stable sort.  `lt a b` must hold exactly
when `a`'s key is strictly before `b`'s key (for `reverse=True`, strictly
greater). -/
def pySort (lt : α → α → Bool) (l : List α) : List α :=
  l.foldl (fun acc x => insertStable lt x acc) []

/-- Update every binding of key `k` in an association list (keys are unique
in all uses, mirroring a Python dict entry update). -/
def updateAssoc (l : List (String × β)) (k : String) (f : β → β) : List (String × β) :=
  l.map (fun p => if p.1 = k then (p.1, f p.2) else p)

/-- Python `del d[k]` on an association list. -/
def eraseAssoc (l : List (String × β)) (k : String) : List (String × β) :=
  l.filter (fun p => p.1 ≠ k)

/-- `defaultdict(list)` accumulation preserving first-seen key order. -/
def appendGroup (acc : List (String × List α)) (k : String) (x : α) : List (String × List α) :=
  if (acc.lookup k).isSome then updateAssoc acc k (fun xs => xs ++ [x])
  else acc ++ [(k, [x])]

/-- Python `pat in s` (substring containment) on character lists. -/
def charsHavePrefix : List Char → List Char → Bool
  | [], _ => true
  | _ :: _, [] => false
  | p :: ps, c :: cs => p == c && charsHavePrefix ps cs

/-- Python `pat in s` (substring containment) on character lists. -/
def charsContain (pat : List Char) : List Char → Bool
  | [] => pat.isEmpty
  | c :: cs => charsHavePrefix pat (c :: cs) || charsContain pat cs

/-- Python `pat in s` for strings. -/
def strContains (s pat : String) : Bool :=
  charsContain pat.data s.data

/-- Python `str.upper()` on one character; the symbols and sides handled by
this pipeline are ASCII. -/
def pyCharUpper (c : Char) : Char :=
  if 'a' ≤ c ∧ c ≤ 'z' then Char.ofNat (c.toNat - 32) else c

/-- Python `str.upper()`. -/
def pyUpper (s : String) : String := String.mk (s.data.map pyCharUpper)

/-- Python `str.startswith(pre)`. -/
def pyStartsWith (s pre : String) : Bool := charsHavePrefix pre.data s.data

/-- Python `str.endswith(suffix)`. -/
def pyEndsWith (s suffix : String) : Bool :=
  charsHavePrefix suffix.data.reverse s.data.reverse

/-- Shared fill-grouping loop of `aggregate_binance_trades` and
`aggregate_fills_by_order`: walk a (newest-first) list, repeatedly taking the
maximal run of exit fills (`isExit`) followed by the maximal run of entry
fills, and collect each combined run. -/
def collectRunsAux (isExit : α → Bool) : ℕ → List α → List (List α)
  | 0, _ => []
  | _, [] => []
  | fuel + 1, f :: fs =>
    let l := f :: fs
    let ex := List.takeWhile isExit l
    let rest1 := List.dropWhile isExit l
    let en := List.takeWhile (fun a => !isExit a) rest1
    let rest2 := List.dropWhile (fun a => !isExit a) rest1
    (ex ++ en) :: collectRunsAux isExit fuel rest2

/-- Each pass of the loop consumes at least the head element, so fuel equal
to the list length suffices for exhaustion. -/
def collectRuns (isExit : α → Bool) (l : List α) : List (List α) :=
  collectRunsAux isExit l.length l

/-! ## Blofin (`blofin_client.py`, `blofin_sync.py`, `exchange_service.py`) -/

/-- A raw Blofin fill from `/api/v1/trade/fills-history`.  Numeric strings
are embedded as rationals; `lever`/`margin`/`orderId`/`tradeId` may be
missing or empty (`none`). -/
structure BlofinFill where
  instId : String
  side : String
  positionSide : String
  fillPrice : ℚ
  fillSize : ℚ
  fillPnl : ℚ
  fee : ℚ
  ts : ℕ
  lever : Option ℚ
  margin : Option ℚ
  orderId : Option String
  tradeId : Option String
  brokerId : String
  deriving DecidableEq

/-- An aggregated Blofin position as produced by `aggregate_fills_by_order`.
`exitPrice` is stored by the code as `str(avg_exit_price)` — a nonempty
string, hence always truthy when present; `some` records presence. -/
structure BlofinAggFill where
  tradeId : String
  orderId : String
  instId : String
  side : String
  positionSide : String
  fillPrice : ℚ
  fillSize : ℚ
  fillPnl : ℚ
  exitPrice : Option ℚ
  fee : ℚ
  lever : ℚ
  margin : ℚ
  ts : ℕ
  exit_ts : ℕ
  brokerId : String
  deriving DecidableEq

def blofinIsExit (f : BlofinFill) : Bool := decide (f.fillPnl ≠ 0)

/-- `defaultdict(list)` grouping by `instId`, skipping empty symbols. -/
def groupBySymbolBlofin (fills : List BlofinFill) : List (String × List BlofinFill) :=
  fills.foldl (fun acc f => if f.instId = "" then acc else appendGroup acc f.instId f) []

/-- Per-symbol position grouping of `aggregate_fills_by_order`: sort fills
newest-first, split into exit-run/entry-run groups, keep complete groups. -/
def blofinKeptRuns (sf : List BlofinFill) : List (List BlofinFill) :=
  (collectRuns blofinIsExit (pySort (fun a b => decide (b.ts < a.ts)) sf)).filter
    (fun g => g.any (fun f => decide (f.fillPnl = 0)) && g.any blofinIsExit)

/-- The aggregation body of `aggregate_fills_by_order` for one position
group (the loop body after `for position_fills in positions`). -/
def aggregateOneBlofinPosition (lmap : List (String × ℚ)) (position_fills : List BlofinFill) :
    Option BlofinAggFill :=
  match position_fills with
  | [] => none
  | first :: _ =>
    let entry_fills := position_fills.filter (fun f => decide (f.fillPnl = 0))
    let exit_fills := position_fills.filter blofinIsExit
    let total_entry_size := (entry_fills.map (·.fillSize)).sum
    let avg_entry_price :=
      if 0 < total_entry_size then
        ((entry_fills.map (fun f => f.fillPrice * f.fillSize)).sum) / total_entry_size
      else
        match entry_fills.head? with
        | some f => f.fillPrice
        | none => 0
    let total_exit_size := (exit_fills.map (·.fillSize)).sum
    let avg_exit_price :=
      if 0 < total_exit_size then
        ((exit_fills.map (fun f => f.fillPrice * f.fillSize)).sum) / total_exit_size
      else
        match exit_fills.head? with
        | some f => f.fillPrice
        | none => 0
    let total_pnl := (position_fills.map (·.fillPnl)).sum
    let total_fees := (position_fills.map (·.fee)).sum
    let first_fill := (entry_fills.head?).getD first
    let entry_ts :=
      match entry_fills.head? with
      | some f => f.ts
      | none => first.ts
    let exit_ts :=
      match exit_fills.getLast? with
      | some f => f.ts
      | none => ((position_fills.getLast?).getD first).ts
    let lever_value :=
      match lmap.lookup first_fill.instId with
      | some v => v
      | none => first_fill.lever.getD 0
    let position_id :=
      first_fill.orderId.getD
        (first_fill.tradeId.getD (first_fill.instId ++ "_" ++ toString entry_ts))
    some {
      tradeId := position_id
      orderId := position_id
      instId := first_fill.instId
      side := first_fill.side
      positionSide := first_fill.positionSide
      fillPrice := avg_entry_price
      fillSize := total_entry_size
      fillPnl := total_pnl
      exitPrice := some avg_exit_price
      fee := total_fees
      lever := lever_value
      margin := first_fill.margin.getD 0
      ts := entry_ts
      exit_ts := exit_ts
      brokerId := first_fill.brokerId }

/-- `aggregate_fills_by_order` from `blofin_client.py`. -/
def aggregate_fills_by_order (fills : List BlofinFill) (lmap : List (String × ℚ)) :
    List BlofinAggFill :=
  ((groupBySymbolBlofin fills).foldl (fun acc p => acc ++ blofinKeptRuns p.2) []).filterMap
    (aggregateOneBlofinPosition lmap)

/-- `get_contract_size` from `blofin_client.py`; the in-memory cache filled by
`fetch_contract_sizes` is embedded as the `cmap` association list, the
hard-coded defaults as the fallback branches. -/
def get_contract_size (cmap : List (String × ℚ)) (symbol : String) : ℚ :=
  let symbolUpper := pyUpper symbol
  match cmap.lookup symbolUpper with
  | some v => v
  | none =>
    if pyStartsWith symbolUpper "BTC" then 1 / 1000
    else if pyStartsWith symbolUpper "ETH" then 1 / 100
    else 1 / 100

/-- The calculated-trade dict produced by `calculate_trade_fields` and
consumed by `match_entry_exit_pairs` / `prepare_trades_for_supabase` /
`_normalize_calculated_blofin_trades`; every key may in principle be
absent, mirroring the defensive `dict.get` reads. -/
structure TradeDict where
  symbol : String
  side : String
  entry : Option ℚ
  exit : Option ℚ
  size : Option ℚ
  leverage : Option ℚ
  fees : Option ℚ
  pnl_usd : Option ℚ
  pnl_pct : Option ℚ
  date : Option ℕ
  exit_date : Option ℕ
  deriving DecidableEq

/-- `calculate_trade_fields` from `blofin_client.py`. -/
def calculate_trade_fields (cmap : List (String × ℚ)) (now : ℕ) (fill : BlofinAggFill) :
    Option TradeDict :=
  let date := if 0 < fill.ts then fill.ts else now
  let exit_date : Option ℕ := if 0 < fill.exit_ts then some fill.exit_ts else none
  let symbol := fill.instId
  let blofin_side := pyUpper fill.side
  let pnl_usd := fill.fillPnl
  let side :=
    if blofin_side = "BUY" then "LONG"
    else if blofin_side = "SELL" then "SHORT"
    else blofin_side
  let entry := fill.fillPrice
  let size_contracts := fill.fillSize
  let fees := fill.fee
  let contract_size := get_contract_size cmap symbol
  let size := size_contracts * contract_size
  if entry = 0 then none
  else
    let api_leverage := fill.lever
    let exit_price :=
      match fill.exitPrice with
      | some e => e
      | none =>
        if pnl_usd ≠ 0 ∧ size ≠ 0 then
          if side = "LONG" then entry + pnl_usd / size
          else if side = "SHORT" then entry - pnl_usd / size
          else entry
        else entry
    let margin := fill.margin
    let leverage :=
      if 0 < api_leverage then api_leverage
      else if 0 < margin ∧ 0 < entry ∧ 0 < size then entry * size / margin
      else 1
    let position_value := entry * size
    let pnl_pct :=
      if 0 < position_value ∧ 0 < leverage then pnl_usd / (position_value / leverage) * 100
      else 0
    some {
      symbol := symbol
      side := side
      entry := some (roundValueB entry 8)
      exit := some (roundValueB exit_price 8)
      size := some (roundValueB size 8)
      leverage := some (roundValueB leverage 2)
      fees := some (roundValueB fees 8)
      pnl_usd := some (roundValueB pnl_usd 2)
      pnl_pct := some (roundValueB pnl_pct 4)
      date := some date
      exit_date := exit_date }

/-- The pair-repair mutation of `match_entry_exit_pairs` applied to a
matching (exit, entry) pair of consecutive records. -/
def updatePair (cur next : TradeDict) : TradeDict :=
  let base :=
    { cur with
      exit_date := cur.date
      date := next.date
      exit := cur.entry
      entry := next.entry }
  let entry_price := next.entry.getD 0
  let size := cur.size.getD 0
  let pnl_usd := cur.pnl_usd.getD 0
  let leverage := cur.leverage.getD 1
  if 0 < entry_price ∧ 0 < size ∧ 0 < leverage then
    { base with pnl_pct := some (pnl_usd / (entry_price * size / leverage) * 100) }
  else base

/-- `match_entry_exit_pairs` from `blofin_sync.py`. -/
def match_entry_exit_pairs : List TradeDict → List TradeDict
  | [] => []
  | [t] => if t.pnl_usd.getD 0 ≠ 0 then [t] else []
  | a :: b :: rest =>
    if a.pnl_usd.getD 0 ≠ 0 then
      if b.pnl_usd.getD 0 = 0 ∧ b.symbol = a.symbol then
        updatePair a b :: match_entry_exit_pairs rest
      else
        a :: match_entry_exit_pairs (b :: rest)
    else
      match_entry_exit_pairs (b :: rest)

/-- The normalized trade row built by the `prepare_*_for_supabase` functions
of the four `*_sync.py` routes.  Optional fields are keys that a route may
leave out of the dict. -/
structure PreparedTrade where
  symbol : String
  side : String
  entry_price : ℚ
  quantity : ℚ
  exchange : String
  user_id : Option String
  exit_price : Option ℚ
  leverage : ℚ
  fees : Option ℚ
  pnl_usd : Option ℚ
  pnl_percent : Option ℚ
  entry_time : Option ℕ
  exit_time : Option ℕ
  deriving DecidableEq

/-- Loop body of `prepare_trades_for_supabase` (`blofin_sync.py`) for one
trade dict; `none` means the record is skipped. -/
def prepareBlofinOne (user_id : Option String) (dl : List (String × ℚ)) (trade : TradeDict) :
    Option PreparedTrade :=
  let entry_price := roundTo (normOptQ trade.entry 1000000) 8
  let exit_price := roundTo (normOptQ trade.exit 1000000) 8
  let pnl_usd := if trade.pnl_usd.isSome then roundTo (normOptQ trade.pnl_usd 100000) 2 else 0
  if entry_price = 0 ∨ exit_price = 0 then none
  else if pnl_usd = 0 then none
  else
    let symbol := pyUpper trade.symbol
    let quantity := roundTo (normOptQ trade.size 1000000) 8
    let leverage :=
      match trade.leverage with
      | some l =>
        if 0 < l then roundTo (normQ l 100) 2
        else
          match dl.lookup symbol with
          | some d => d
          | none => 1
      | none =>
        match dl.lookup symbol with
        | some d => d
        | none => 1
    let fees := if trade.fees.isSome then some (roundTo (normOptQ trade.fees 100000) 8) else none
    let pnl_usd_field := if pnl_usd ≠ 0 then some pnl_usd else none
    let pnl_percent :=
      if 0 < entry_price ∧ 0 < quantity ∧ 0 < leverage then
        some (roundTo (pnl_usd / (entry_price * quantity / leverage) * 100) 4)
      else if trade.pnl_pct.isSome then
        some (roundTo (normOptQ trade.pnl_pct 100000) 4)
      else none
    some {
      symbol := symbol
      side := pyUpper trade.side
      entry_price := entry_price
      quantity := quantity
      exchange := "blofin"
      user_id := user_id
      exit_price := if trade.exit.isSome then some exit_price else none
      leverage := leverage
      fees := fees
      pnl_usd := pnl_usd_field
      pnl_percent := pnl_percent
      entry_time := trade.date
      exit_time := trade.exit_date }

/-- `prepare_trades_for_supabase` from `blofin_sync.py`. -/
def prepare_trades_for_supabase (trades : List TradeDict) (user_id : Option String)
    (dl : List (String × ℚ)) : List PreparedTrade :=
  trades.filterMap (prepareBlofinOne user_id dl)

/-- The normalized trade produced by
`ExchangeService._normalize_calculated_blofin_trades`. -/
structure NormCalcTrade where
  exchange_trade_id : String
  exchange : String
  symbol : String
  side : String
  entry : ℚ
  exit : ℚ
  size : ℚ
  leverage : ℚ
  fees : ℚ
  pnl_usd : ℚ
  pnl_pct : Option ℚ
  date : ℕ
  notes : String
  deriving DecidableEq

/-- Loop body of `_normalize_calculated_blofin_trades` for one enumerated
calculated trade. -/
def normalizeCalculatedOne (exchange_id : String) (now : ℕ) (it : ℕ × TradeDict) :
    Option NormCalcTrade :=
  let i := it.1
  let trade := it.2
  let entry_price := trade.entry.getD 0
  let exit_price := trade.exit.getD 0
  if entry_price = 0 ∨ exit_price = 0 then none
  else some {
    exchange_trade_id := "blofin-" ++ toString i
    exchange := exchange_id
    symbol := trade.symbol
    side := pyUpper trade.side
    entry := entry_price
    exit := exit_price
    size := trade.size.getD 0
    leverage := trade.leverage.getD 1
    fees := trade.fees.getD 0
    pnl_usd := trade.pnl_usd.getD 0
    pnl_pct := trade.pnl_pct
    date := trade.date.getD now
    notes := "Blofin perpetual futures trade #" ++ toString i }

/-- `ExchangeService._normalize_calculated_blofin_trades` from
`exchange_service.py` (enumerates its input and assigns positional ids). -/
def normalize_calculated_blofin_trades (trades : List TradeDict) (exchange_id : String)
    (now : ℕ) : List NormCalcTrade :=
  trades.enum.filterMap (normalizeCalculatedOne exchange_id now)

/-- `ExchangeService.deduplicate_trades`: keep only trades whose
`exchange_trade_id` is not among the ids already stored. -/
def deduplicate_trades (new_trades : List NormCalcTrade) (existing_ids : List String) :
    List NormCalcTrade :=
  new_trades.filter (fun t => decide (t.exchange_trade_id ∉ existing_ids))

/-! ## Binance (`binance_client.py`, `binance_sync.py`) -/

/-- A raw Binance `userTrades` fill. -/
structure BinanceFill where
  symbol : String
  side : String
  positionSide : String
  id : String
  orderId : String
  price : ℚ
  qty : ℚ
  realizedPnl : ℚ
  commission : ℚ
  time : ℕ
  deriving DecidableEq

def binanceIsExit (t : BinanceFill) : Bool := decide (t.realizedPnl ≠ 0)

/-- `defaultdict(list)` grouping by symbol, skipping empty symbols. -/
def groupBySymbolBinance (trades : List BinanceFill) : List (String × List BinanceFill) :=
  trades.foldl (fun acc t => if t.symbol = "" then acc else appendGroup acc t.symbol t) []

/-- Per-symbol grouping loop of `aggregate_binance_trades`: sort newest
first, split into exit-run/entry-run groups, keep complete groups. -/
def binanceKeptRuns (sf : List BinanceFill) : List (List BinanceFill) :=
  (collectRuns binanceIsExit (pySort (fun a b => decide (b.time < a.time)) sf)).filter
    (fun g => g.any (fun t => decide (t.realizedPnl = 0)) && g.any binanceIsExit)

/-- All complete position groups collected by `aggregate_binance_trades`. -/
def collectBinancePositions (trades : List BinanceFill) : List (List BinanceFill) :=
  (groupBySymbolBinance trades).foldl (fun acc p => acc ++ binanceKeptRuns p.2) []

/-- The aggregated position dict appended by `aggregate_binance_trades`. -/
structure BinancePosition where
  tradeId : String
  orderId : String
  symbol : String
  side : String
  positionSide : String
  entryPrice : ℚ
  exitPrice : ℚ
  qty : ℚ
  realizedPnl : ℚ
  commission : ℚ
  leverage : ℚ
  entryTime : ℕ
  exitTime : ℕ
  deriving DecidableEq

/-- The aggregation body of `aggregate_binance_trades` for one position
group (the loop body after `for position_trades in positions`). -/
def buildBinancePosition (lmap : List (String × ℚ)) (position_trades : List BinanceFill) :
    Option BinancePosition :=
  match position_trades with
  | [] => none
  | first :: _ =>
    let entry_trades := position_trades.filter (fun t => decide (t.realizedPnl = 0))
    let exit_trades := position_trades.filter binanceIsExit
    let total_entry_qty := (entry_trades.map (·.qty)).sum
    let avg_entry_price :=
      if 0 < total_entry_qty then
        ((entry_trades.map (fun t => t.price * t.qty)).sum) / total_entry_qty
      else
        match entry_trades.head? with
        | some t => t.price
        | none => 0
    let total_exit_qty := (exit_trades.map (·.qty)).sum
    let avg_exit_price :=
      if 0 < total_exit_qty then
        ((exit_trades.map (fun t => t.price * t.qty)).sum) / total_exit_qty
      else
        match exit_trades.head? with
        | some t => t.price
        | none => 0
    let total_pnl := (position_trades.map (·.realizedPnl)).sum
    let total_fees := (position_trades.map (·.commission)).sum
    let first_trade := (entry_trades.head?).getD first
    let symbol := first_trade.symbol
    let entry_side := first_trade.side
    let side := if entry_side = "BUY" then "BUY" else "SELL"
    let entry_ts :=
      match entry_trades.getLast? with
      | some t => t.time
      | none => ((position_trades.getLast?).getD first).time
    let exit_ts :=
      match exit_trades.head? with
      | some t => t.time
      | none => first.time
    let leverage := (lmap.lookup symbol).getD 1
    some {
      tradeId := first_trade.id
      orderId := first_trade.orderId
      symbol := symbol
      side := side
      positionSide := first_trade.positionSide
      entryPrice := avg_entry_price
      exitPrice := avg_exit_price
      qty := total_entry_qty
      realizedPnl := total_pnl
      commission := total_fees
      leverage := leverage
      entryTime := entry_ts
      exitTime := exit_ts }

/-- `aggregate_binance_trades` from `binance_client.py`. -/
def aggregate_binance_trades (trades : List BinanceFill) (lmap : List (String × ℚ)) :
    List BinancePosition :=
  (collectBinancePositions trades).filterMap (buildBinancePosition lmap)

/-- Output dict of `calculate_binance_trade_fields` and
`calculate_bybit_trade_fields`. -/
structure CalcFields where
  date : ℕ
  exit_date : Option ℕ
  symbol : String
  side : String
  entry : ℚ
  exit : ℚ
  size : ℚ
  leverage : ℚ
  fees : ℚ
  pnl_usd : ℚ
  pnl_pct : ℚ
  deriving DecidableEq

/-- `calculate_binance_trade_fields` from `binance_client.py`. -/
def calculate_binance_trade_fields (now : ℕ) (trade : BinancePosition) : Option CalcFields :=
  let entry_ts := trade.entryTime
  let exit_ts := trade.exitTime
  let date := if 0 < entry_ts then entry_ts else now
  let exit_date : Option ℕ := if 0 < exit_ts then some exit_ts else none
  let symbol_raw := trade.symbol
  let symbol :=
    if pyEndsWith symbol_raw "USDT" then symbol_raw.dropRight 4 ++ "-USDT"
    else if pyEndsWith symbol_raw "BUSD" then symbol_raw.dropRight 4 ++ "-BUSD"
    else symbol_raw
  let side := pyUpper trade.side
  let entry := trade.entryPrice
  let exit_price := trade.exitPrice
  let size := trade.qty
  let leverage := trade.leverage
  let fees := |trade.commission|
  let pnl_usd := trade.realizedPnl
  if entry = 0 ∨ size = 0 then none
  else
    let position_value := entry * size
    let pnl_pct :=
      if 0 < position_value ∧ 0 < leverage then pnl_usd / (position_value / leverage) * 100
      else 0
    some {
      date := date
      exit_date := exit_date
      symbol := symbol
      side := side
      entry := roundValue entry 8
      exit := roundValue exit_price 8
      size := roundValue size 8
      leverage := roundValue leverage 2
      fees := roundValue fees 8
      pnl_usd := roundValue pnl_usd 2
      pnl_pct := roundValue pnl_pct 4 }

/-- Loop body of `prepare_binance_trades_for_supabase` for one aggregated
position; `none` means the record is skipped. -/
def prepareBinanceOne (user_id : Option String) (dl : List (String × ℚ)) (now : ℕ)
    (trade : BinancePosition) : Option PreparedTrade :=
  match calculate_binance_trade_fields now trade with
  | none => none
  | some c =>
    let entry_price := roundTo (normQ c.entry 1000000) 8
    let exit_price := roundTo (normQ c.exit 1000000) 8
    let pnl_usd := roundTo (normQ c.pnl_usd 100000) 2
    if entry_price = 0 ∨ exit_price = 0 then none
    else if pnl_usd = 0 then none
    else
      let symbol := pyUpper c.symbol
      let quantity := roundTo (normQ c.size 1000000) 8
      let leverage :=
        if 0 < c.leverage then roundTo (normQ c.leverage 125) 2
        else
          match dl.lookup symbol with
          | some d => d
          | none => 1
      let fees := if c.fees ≠ 0 then some (roundTo (normQ c.fees 100000) 8) else none
      let pnl_percent :=
        if 0 < entry_price ∧ 0 < quantity ∧ 0 < leverage then
          some (roundTo (pnl_usd / (entry_price * quantity / leverage) * 100) 4)
        else if c.pnl_pct ≠ 0 then
          some (roundTo (normQ c.pnl_pct 100000) 4)
        else none
      some {
        symbol := symbol
        side := pyUpper c.side
        entry_price := entry_price
        quantity := quantity
        exchange := "binance"
        user_id := user_id
        exit_price := some exit_price
        leverage := leverage
        fees := fees
        pnl_usd := some pnl_usd
        pnl_percent := pnl_percent
        entry_time := some c.date
        exit_time := c.exit_date }

/-- `prepare_binance_trades_for_supabase` from `binance_sync.py`. -/
def prepare_binance_trades_for_supabase (trades : List BinancePosition)
    (user_id : Option String) (dl : List (String × ℚ)) (now : ℕ) : List PreparedTrade :=
  trades.filterMap (prepareBinanceOne user_id dl now)

/-! ## Bybit (`bybit_client.py`, `bybit_sync.py`) -/

/-- A Bybit `/v5/position/closed-pnl` record. -/
structure BybitRecord where
  symbol : String
  side : String
  avgEntryPrice : ℚ
  avgExitPrice : ℚ
  qty : ℚ
  closedPnl : ℚ
  leverage : ℚ
  cumEntryValue : ℚ
  cumExitValue : ℚ
  createdTime : ℕ
  updatedTime : ℕ
  deriving DecidableEq

/-- `calculate_bybit_trade_fields` from `bybit_client.py`. -/
def calculate_bybit_trade_fields (now : ℕ) (record : BybitRecord) : Option CalcFields :=
  let created_time := record.createdTime
  let updated_time := record.updatedTime
  let entry_date := if 0 < created_time then created_time else now
  let exit_date := if 0 < updated_time then updated_time else entry_date
  let symbol_raw := record.symbol
  let symbol :=
    if pyEndsWith symbol_raw "USDT" then symbol_raw.dropRight 4 ++ "-USDT"
    else if pyEndsWith symbol_raw "USDC" then symbol_raw.dropRight 4 ++ "-USDC"
    else symbol_raw
  let side := pyUpper record.side
  let entry_price := record.avgEntryPrice
  let exit_price := record.avgExitPrice
  let size := record.qty
  let pnl_usd := record.closedPnl
  let leverage := record.leverage
  let cum_entry := record.cumEntryValue
  let cum_exit := record.cumExitValue
  let fees := (cum_entry + cum_exit) * (6 / 10000)
  if entry_price = 0 ∨ size = 0 then none
  else
    let position_value := entry_price * size
    let pnl_pct :=
      if 0 < position_value ∧ 0 < leverage then pnl_usd / (position_value / leverage) * 100
      else 0
    some {
      date := entry_date
      exit_date := some exit_date
      symbol := symbol
      side := side
      entry := roundValue entry_price 8
      exit := roundValue exit_price 8
      size := roundValue size 8
      leverage := roundValue leverage 2
      fees := roundValue fees 8
      pnl_usd := roundValue pnl_usd 2
      pnl_pct := roundValue pnl_pct 4 }

/-- Loop body of `prepare_bybit_trades_for_supabase` for one record; the
code computes PnL% with the raw leverage but stores the clamped one. -/
def prepareBybitOne (user_id : Option String) (now : ℕ) (record : BybitRecord) :
    Option PreparedTrade :=
  match calculate_bybit_trade_fields now record with
  | none => none
  | some c =>
    let entry_price := roundTo (normQ c.entry 1000000) 8
    let exit_price := roundTo (normQ c.exit 1000000) 8
    let pnl_usd := roundTo (normQ c.pnl_usd 100000) 2
    if entry_price = 0 ∨ exit_price = 0 then none
    else
      let symbol := pyUpper c.symbol
      let quantity := roundTo (normQ c.size 1000000) 8
      let leverage := c.leverage
      let leverage_field := roundTo (normQ leverage 100) 2
      let fees := if c.fees ≠ 0 then some (roundTo (normQ c.fees 100000) 8) else none
      let pnl_percent :=
        if 0 < entry_price ∧ 0 < quantity ∧ 0 < leverage then
          let margin_used := entry_price * quantity / leverage
          some (roundTo (if 0 < margin_used then pnl_usd / margin_used * 100 else 0) 4)
        else if c.pnl_pct ≠ 0 then
          some (roundTo (normQ c.pnl_pct 100000) 4)
        else none
      some {
        symbol := symbol
        side := pyUpper c.side
        entry_price := entry_price
        quantity := quantity
        exchange := "bybit"
        user_id := user_id
        exit_price := some exit_price
        leverage := leverage_field
        fees := fees
        pnl_usd := some pnl_usd
        pnl_percent := pnl_percent
        entry_time := some c.date
        exit_time := c.exit_date }

/-- `prepare_bybit_trades_for_supabase` from `bybit_sync.py`. -/
def prepare_bybit_trades_for_supabase (records : List BybitRecord)
    (user_id : Option String) (now : ℕ) : List PreparedTrade :=
  records.filterMap (prepareBybitOne user_id now)

/-! ## Hyperliquid (`hyperliquid_client.py`, `hyperliquid_sync.py`) -/

/-- A raw Hyperliquid fill from the `userFills` endpoint. -/
structure HlFill where
  coin : String
  px : ℚ
  sz : ℚ
  side : String
  time : ℕ
  closedPnl : ℚ
  fee : ℚ
  dir : String
  hash : String
  oid : String
  tid : String
  deriving DecidableEq

/-- Output dict of `calculate_hyperliquid_trade_fields`. -/
structure HlCalc where
  date : ℕ
  exit_date : ℕ
  symbol : String
  side : String
  entry : ℚ
  exit : ℚ
  size : ℚ
  leverage : ℚ
  fees : ℚ
  pnl_usd : ℚ
  pnl_pct : ℚ
  is_closing : Bool
  direction : String
  tx_hash : String
  trade_id : String
  deriving DecidableEq

/-- `calculate_hyperliquid_trade_fields` from `hyperliquid_client.py`. -/
def calculate_hyperliquid_trade_fields (default_leverage : ℚ) (now : ℕ) (fill : HlFill) :
    Option HlCalc :=
  let time_ms := fill.time
  let trade_date := if 0 < time_ms then time_ms else now
  let coin := pyUpper fill.coin
  let symbol := coin ++ "-USDC"
  let side_raw := fill.side
  let direction := fill.dir
  let side :=
    if strContains direction "Long" then "BUY"
    else if strContains direction "Short" then "SELL"
    else if side_raw = "A" then "SELL" else "BUY"
  let price := fill.px
  let size := fill.sz
  let pnl_usd := fill.closedPnl
  let fee := fill.fee
  if price = 0 ∨ size = 0 then none
  else
    let is_closing := strContains direction "Close" || decide (pnl_usd ≠ 0)
    let leverage := default_leverage
    let position_value := price * size
    let pnl_pct :=
      if pnl_usd ≠ 0 ∧ 0 < position_value ∧ 0 < leverage then
        pnl_usd / (position_value / leverage) * 100
      else 0
    some {
      date := trade_date
      exit_date := trade_date
      symbol := symbol
      side := side
      entry := roundValue price 8
      exit := roundValue price 8
      size := roundValue size 8
      leverage := roundValue leverage 2
      fees := roundValue fee 8
      pnl_usd := roundValue pnl_usd 2
      pnl_pct := roundValue pnl_pct 4
      is_closing := is_closing
      direction := direction
      tx_hash := fill.hash
      trade_id := fill.tid }

/-- An entry in the open-position table of `aggregate_hyperliquid_fills`. -/
structure HlPos where
  coin : String
  side : String
  entries : List HlCalc
  total_size : ℚ
  total_cost : ℚ
  fees : ℚ
  entry_time : ℕ
  deriving DecidableEq

/-- A completed trade emitted by `aggregate_hyperliquid_fills`. -/
structure HlTrade where
  symbol : String
  side : String
  entry_price : ℚ
  exit_price : ℚ
  quantity : ℚ
  leverage : ℚ
  fees : ℚ
  pnl_usd : ℚ
  pnl_percent : ℚ
  entry_time : ℕ
  exit_time : ℕ
  exchange : String
  deriving DecidableEq

/-- The loop state of `aggregate_hyperliquid_fills`: the open-position
table and the completed trades emitted so far. -/
structure HlState where
  positions : List (String × HlPos)
  completed : List HlTrade
  deriving DecidableEq

/-- The standalone-close trade of `aggregate_hyperliquid_fills` (a Close
fill with no matching open position). -/
def hlStandaloneTrade (default_leverage : ℚ) (calculated : HlCalc) : HlTrade := {
  symbol := calculated.symbol
  side := calculated.side
  entry_price := calculated.entry
  exit_price := calculated.exit
  quantity := roundTo calculated.size 8
  leverage := default_leverage
  fees := roundTo calculated.fees 8
  pnl_usd := calculated.pnl_usd
  pnl_percent := calculated.pnl_pct
  entry_time := calculated.date
  exit_time := calculated.date
  exchange := "hyperliquid" }

/-- One iteration of the fill loop of `aggregate_hyperliquid_fills`. -/
def hlStep (default_leverage : ℚ) (now : ℕ) (st : HlState) (fill : HlFill) : HlState :=
  match calculate_hyperliquid_trade_fields default_leverage now fill with
  | none => st
  | some calculated =>
    let coin := pyUpper fill.coin
    let direction := fill.dir
    if strContains direction "Open" then
      let key := coin ++ "_" ++ calculated.side
      let positions1 :=
        if (st.positions.lookup key).isSome then st.positions
        else st.positions ++ [(key,
          { coin := coin, side := calculated.side, entries := [], total_size := 0,
            total_cost := 0, fees := 0, entry_time := calculated.date })]
      { st with positions := updateAssoc positions1 key (fun pos =>
          { pos with
            entries := pos.entries ++ [calculated]
            total_size := pos.total_size + calculated.size
            total_cost := pos.total_cost + calculated.entry * calculated.size
            fees := pos.fees + calculated.fees }) }
    else if strContains direction "Close" then
      let key := coin ++ "_" ++ calculated.side
      match st.positions.lookup key with
      | some pos =>
        if 0 < pos.total_size then
          let avg_entry := if 0 < pos.total_size then pos.total_cost / pos.total_size else 0
          let entry_price := roundTo avg_entry 8
          let quantity := roundTo (min calculated.size pos.total_size) 8
          let pnl_percent :=
            if 0 < entry_price ∧ 0 < quantity ∧ 0 < default_leverage then
              let margin_used := entry_price * quantity / default_leverage
              if 0 < margin_used then roundTo (calculated.pnl_usd / margin_used * 100) 4 else 0
            else 0
          let trade : HlTrade := {
            symbol := calculated.symbol
            side := calculated.side
            entry_price := entry_price
            exit_price := calculated.exit
            quantity := quantity
            leverage := default_leverage
            fees := roundTo (pos.fees + calculated.fees) 8
            pnl_usd := calculated.pnl_usd
            pnl_percent := pnl_percent
            entry_time := pos.entry_time
            exit_time := calculated.date
            exchange := "hyperliquid" }
          let remaining := pos.total_size - calculated.size
          let positions2 :=
            if remaining ≤ 0 then eraseAssoc st.positions key
            else updateAssoc st.positions key (fun p =>
              { p with total_size := remaining, total_cost := avg_entry * remaining, fees := 0 })
          { positions := positions2, completed := st.completed ++ [trade] }
        else
          { st with completed := st.completed ++ [hlStandaloneTrade default_leverage calculated] }
      | none =>
        { st with completed := st.completed ++ [hlStandaloneTrade default_leverage calculated] }
    else st

/-- `aggregate_hyperliquid_fills` from `hyperliquid_client.py`. -/
def aggregate_hyperliquid_fills (fills : List HlFill) (default_leverage : ℚ) (now : ℕ) :
    List HlTrade :=
  ((pySort (fun a b => decide (a.time < b.time)) fills).foldl (hlStep default_leverage now)
    { positions := [], completed := [] }).completed

/-- Loop body of `prepare_hyperliquid_trades_for_supabase` for one
aggregated trade; `none` means the record is skipped.  Note: no
`exchange_trade_id` key is produced. -/
def prepareHyperliquidOne (user_id : Option String) (trade : HlTrade) : Option PreparedTrade :=
  let entry_price := roundTo (normQ trade.entry_price 1000000) 8
  let exit_price := roundTo (normQ trade.exit_price 1000000) 8
  let pnl_usd := roundTo (normQ trade.pnl_usd 100000) 2
  if entry_price = 0 ∨ exit_price = 0 then none
  else
    let symbol := pyUpper trade.symbol
    let leverage := trade.leverage
    some {
      symbol := symbol
      side := pyUpper trade.side
      entry_price := entry_price
      quantity := roundTo (normQ trade.quantity 1000000) 8
      exchange := "hyperliquid"
      user_id := user_id
      exit_price := some exit_price
      leverage := roundTo (normQ leverage 100) 2
      fees := if trade.fees ≠ 0 then some (roundTo (normQ trade.fees 100000) 8) else none
      pnl_usd := some pnl_usd
      pnl_percent :=
        if trade.pnl_percent ≠ 0 then some (roundTo (normQ trade.pnl_percent 100000) 4)
        else none
      entry_time := some trade.entry_time
      exit_time := some trade.exit_time }

/-- `prepare_hyperliquid_trades_for_supabase` from `hyperliquid_sync.py`. -/
def prepare_hyperliquid_trades_for_supabase (trades : List HlTrade) (user_id : Option String) :
    List PreparedTrade :=
  trades.filterMap (prepareHyperliquidOne user_id)

/-! ## Sync scheduler (`sync_scheduler.py`) -/

/-- The mutable columns of an `ExchangeConnection` row touched by a sync
job. -/
structure ConnState where
  last_sync_status : String
  last_error : Option String
  last_sync_time : Option ℕ
  deriving DecidableEq

/-- The connection table, keyed by connection id. -/
abbrev ConnDB := List (String × ConnState)

/-- `_sync_connection` from `sync_scheduler.py`.  `body` abstracts the
fetch/dedup/import phase in the `try` block: `.ok trades` is a normal
completion, `.error e` an uncaught exception with message `e`.  The
`except` handler marks the connection failed with the message truncated to
500 characters; no exception escapes. -/
def sync_connection (db : ConnDB) (connection_id : String)
    (body : Except String (List NormCalcTrade)) (now : ℕ) : ConnDB :=
  match db.lookup connection_id with
  | none => db
  | some _ =>
    let db1 := updateAssoc db connection_id
      (fun c => { c with last_sync_status := "in_progress" })
    match body with
    | .error e =>
      updateAssoc db1 connection_id (fun c =>
        { c with last_sync_status := "failed", last_error := some (pyTruncate e 500) })
    | .ok _ =>
      updateAssoc db1 connection_id (fun c =>
        { c with last_sync_status := "success", last_sync_time := some now,
                 last_error := none })

/-- `sync_single_connection_async` from `sync_scheduler.py`: a decryption
failure is caught by its own handler, which also marks the connection
failed with the truncated message. -/
def sync_single_connection_async (db : ConnDB) (connection_id : String)
    (decrypted : Except String Unit) (body : Except String (List NormCalcTrade))
    (now : ℕ) : ConnDB :=
  match decrypted with
  | .error e =>
    updateAssoc db connection_id (fun c =>
      { c with last_sync_status := "failed", last_error := some (pyTruncate e 500) })
  | .ok _ => sync_connection db connection_id body now

/-- `sync_all_connections` from `sync_scheduler.py`: iterate over the
snapshot of connections, skip those already `in_progress`, and run each
remaining one; a failing job never stops the loop. -/
def sync_all_connections (db : ConnDB) (decrypted : String → Except String Unit)
    (bodies : String → Except String (List NormCalcTrade)) (now : ℕ) : ConnDB :=
  db.foldl (fun acc p =>
    if p.2.last_sync_status = "in_progress" then acc
    else sync_single_connection_async acc p.1 (decrypted p.1) (bodies p.1) now) db

/-! ## Concrete inputs used in scenario evaluations -/

def T1 : ℕ := 1700000000000

def T2 : ℕ := 1700000100000

/-- Hyperliquid scenario, opening fill: Open Long ETH, px 2000, sz 1, fee 0.5. -/
def hlOpenFill : HlFill :=
  { coin := "ETH", px := 2000, sz := 1, side := "B", time := T1, closedPnl := 0,
    fee := 1/2, dir := "Open Long", hash := "h1", oid := "o1", tid := "t1" }

/-- Hyperliquid scenario, closing fill: Close Long ETH, px 2100, sz 1, fee 0.5,
closedPnl 100. -/
def hlCloseFill : HlFill :=
  { coin := "ETH", px := 2100, sz := 1, side := "A", time := T2, closedPnl := 100,
    fee := 1/2, dir := "Close Long", hash := "h2", oid := "o2", tid := "t2" }

/-- Blofin pair-repair scenario, exit record (pnl 30, entry 2050, date T2). -/
def pairExitRec : TradeDict :=
  { symbol := "ETH-USDT", side := "LONG", entry := some 2050, exit := none, size := none,
    leverage := none, fees := none, pnl_usd := some 30, pnl_pct := none,
    date := some T2, exit_date := none }

/-- Blofin pair-repair scenario, entry record (pnl 0, entry 2000, date T1). -/
def pairEntryRec : TradeDict :=
  { symbol := "ETH-USDT", side := "LONG", entry := some 2000, exit := none, size := none,
    leverage := none, fees := none, pnl_usd := some 0, pnl_pct := none,
    date := some T1, exit_date := none }

/-- Bybit closed-PnL scenario record. -/
def bybitScenarioRec : BybitRecord :=
  { symbol := "BTCUSDT", side := "Sell", avgEntryPrice := 30000, avgExitPrice := 29500,
    qty := 1/5, closedPnl := -100, leverage := 5, cumEntryValue := 6000,
    cumExitValue := 5900, createdTime := T1, updatedTime := T2 }

/-- A Bybit record with zero closed PnL and valid prices/size. -/
def bybitZeroPnlRec : BybitRecord :=
  { symbol := "BTCUSDT", side := "Buy", avgEntryPrice := 30000, avgExitPrice := 30000,
    qty := 1/5, closedPnl := 0, leverage := 5, cumEntryValue := 6000,
    cumExitValue := 6000, createdTime := T1, updatedTime := T2 }

/-- A calculated Blofin trade with valid prices, nonzero pnl but zero size. -/
def blofinZeroSizeTrade : TradeDict :=
  { symbol := "ETH-USDT", side := "LONG", entry := some 100, exit := some 110,
    size := some 0, leverage := none, fees := none, pnl_usd := some 30,
    pnl_pct := some (25/2), date := some T1, exit_date := some T2 }

/-- A calculated Blofin trade carrying leverage 125. -/
def blofinLev125Trade : TradeDict :=
  { symbol := "ETH-USDT", side := "LONG", entry := some 100, exit := some 110,
    size := some 1, leverage := some 125, fees := none, pnl_usd := some 30,
    pnl_pct := some (25/2), date := some T1, exit_date := some T2 }

/-- A calculated Blofin trade carrying leverage 110 (below the claimed 125 cap). -/
def blofinLev110Trade : TradeDict :=
  { symbol := "ETH-USDT", side := "LONG", entry := some 100, exit := some 110,
    size := some 1, leverage := some 110, fees := none, pnl_usd := some 30,
    pnl_pct := some (25/2), date := some T1, exit_date := some T2 }

/-- A calculated Blofin trade carrying leverage 20 (kept unchanged). -/
def blofinLev20Trade : TradeDict :=
  { symbol := "ETH-USDT", side := "LONG", entry := some 100, exit := some 110,
    size := some 1, leverage := some 20, fees := some (1/10), pnl_usd := some 30,
    pnl_pct := some (25/2), date := some T1, exit_date := some T2 }

/-- The prepared trade produced from `blofinLev20Trade`. -/
def blofinLev20Prep : PreparedTrade :=
  { symbol := "ETH-USDT", side := "LONG", entry_price := 100, quantity := 1,
    exchange := "blofin", user_id := none, exit_price := some 110, leverage := 20,
    fees := some (1/10), pnl_usd := some 30, pnl_percent := some 600,
    entry_time := some T1, exit_time := some T2 }

/-- Binance exit fill with commission +1 (realizedPnl 100). -/
def binExitFill : BinanceFill :=
  { symbol := "BTCUSDT", side := "SELL", positionSide := "BOTH", id := "2", orderId := "20",
    price := 51000, qty := 1/10, realizedPnl := 100, commission := 1, time := 2 }

/-- Binance entry fill with commission −2 (realizedPnl 0). -/
def binEntryFill : BinanceFill :=
  { symbol := "BTCUSDT", side := "BUY", positionSide := "BOTH", id := "1", orderId := "10",
    price := 50000, qty := 1/10, realizedPnl := 0, commission := -2, time := 1 }

/-- Binance scenario exit fill: SELL 0.1 @ 51000, commission 1.02, pnl 100. -/
def binScenExit : BinanceFill :=
  { symbol := "BTCUSDT", side := "SELL", positionSide := "BOTH", id := "4", orderId := "40",
    price := 51000, qty := 1/10, realizedPnl := 100, commission := 51/50, time := 2 }

/-- Binance scenario entry fill: BUY 0.1 @ 50000, commission 1.0, pnl 0. -/
def binScenEntry : BinanceFill :=
  { symbol := "BTCUSDT", side := "BUY", positionSide := "BOTH", id := "3", orderId := "30",
    price := 50000, qty := 1/10, realizedPnl := 0, commission := 1, time := 1 }

/-- Blofin exit fill carrying exchange-provided ids (tradeId 555, orderId 777). -/
def blofinExitFill : BlofinFill :=
  { instId := "SOL-USDT", side := "sell", positionSide := "net", fillPrice := 155,
    fillSize := 5, fillPnl := 25, fee := 1/10, ts := 2000, lever := some 20,
    margin := none, orderId := some "777", tradeId := some "555", brokerId := "" }

/-- Blofin entry fill carrying exchange-provided ids (tradeId 556, orderId 778). -/
def blofinEntryFill : BlofinFill :=
  { instId := "SOL-USDT", side := "buy", positionSide := "net", fillPrice := 150,
    fillSize := 5, fillPnl := 0, fee := 1/10, ts := 1000, lever := some 20,
    margin := none, orderId := some "778", tradeId := some "556", brokerId := "" }

/-- An idle connection row. -/
def idleConn : ConnState :=
  { last_sync_status := "success", last_error := none, last_sync_time := some 5 }

/-- A Hyperliquid open position accumulated from two opening fills with
entry fees 1 and 2 (fee accumulator 3). -/
def hlAccumPos : HlPos :=
  { coin := "ETH", side := "BUY", entries := [], total_size := 2, total_cost := 200,
    fees := 3, entry_time := T1 }

/-- A Close Long fill for half of `hlAccumPos` with its own fee 0.25. -/
def hlHalfCloseFill : HlFill :=
  { coin := "ETH", px := 110, sz := 1, side := "A", time := T2, closedPnl := 10,
    fee := 1/4, dir := "Close Long", hash := "h3", oid := "o3", tid := "t3" }

/-- The calculated fields of `hlHalfCloseFill` at default leverage 10. -/
def hlHalfCloseCalc : HlCalc :=
  { date := T2, exit_date := T2, symbol := "ETH-USDC", side := "BUY", entry := 110,
    exit := 110, size := 1, leverage := 10, fees := 1/4, pnl_usd := 10,
    pnl_pct := 909091/10000, is_closing := true, direction := "Close Long",
    tx_hash := "h3", trade_id := "t3" }

/-- Two opening fills (fees 1 and 2) and two half closes (fees 0.25 and 0.3)
of one ETH long position. -/
def hlO1 : HlFill :=
  { coin := "ETH", px := 100, sz := 1, side := "B", time := 10, closedPnl := 0,
    fee := 1, dir := "Open Long", hash := "a1", oid := "q1", tid := "u1" }

def hlO2 : HlFill :=
  { coin := "ETH", px := 100, sz := 1, side := "B", time := 20, closedPnl := 0,
    fee := 2, dir := "Open Long", hash := "a2", oid := "q2", tid := "u2" }

def hlC1 : HlFill :=
  { coin := "ETH", px := 110, sz := 1, side := "A", time := 30, closedPnl := 10,
    fee := 1/4, dir := "Close Long", hash := "a3", oid := "q3", tid := "u3" }

def hlC2 : HlFill :=
  { coin := "ETH", px := 112, sz := 1, side := "A", time := 40, closedPnl := 12,
    fee := 3/10, dir := "Close Long", hash := "a4", oid := "q4", tid := "u4" }

/-! ## Helper lemmas -/

theorem pnl_ratio_formula (p e l : ℚ) : p / (e / l) * 100 = p * 100 * l / e := by
  rw [div_div_eq_mul_div, div_mul_eq_mul_div]
  ring_nf

theorem lookup_updateAssoc_self (l : List (String × β)) (k : String) (f : β → β) :
    (updateAssoc l k f).lookup k = (l.lookup k).map f := by
  induction l with
  | nil => rfl
  | cons p l ih =>
    obtain ⟨k1, v⟩ := p
    simp only [updateAssoc, List.map_cons]
    by_cases h : k1 = k
    · rw [if_pos h]
      subst h
      simp [List.lookup]
    · rw [if_neg h]
      have hbeq : (k == k1) = false := beq_eq_false_iff_ne.mpr (Ne.symm h)
      simp only [List.lookup, hbeq]
      exact ih

theorem lookup_updateAssoc_ne (l : List (String × β)) (k k2 : String) (f : β → β)
    (h : k2 ≠ k) : (updateAssoc l k f).lookup k2 = l.lookup k2 := by
  induction l with
  | nil => rfl
  | cons p l ih =>
    obtain ⟨k1, v⟩ := p
    simp only [updateAssoc, List.map_cons]
    by_cases h1 : k1 = k
    · rw [if_pos h1]
      subst h1
      have hbeq : (k2 == k1) = false := beq_eq_false_iff_ne.mpr h
      simp only [List.lookup, hbeq]
      exact ih
    · rw [if_neg h1]
      by_cases h2 : k2 = k1
      · subst h2
        simp [List.lookup]
      · have hbeq : (k2 == k1) = false := beq_eq_false_iff_ne.mpr h2
        simp only [List.lookup, hbeq]
        exact ih

/-! ## Claim theorems -/

/-- C5: on the two-fill Hyperliquid input (Open Long ETH px 2000 sz 1 fee 0.5
at T1, Close Long ETH px 2100 sz 1 fee 0.5 closedPnl 100 at T2) the
Hyperliquid aggregator emits exactly one trade with symbol ETH-USDC, side
BUY, entry 2000, exit 2100, quantity 1, leverage 10, fees 1.0, pnl_usd 100,
entry_time T1, exit_time T2 and pnl_percent 50. -/
theorem C5_hyperliquid_match :
    aggregate_hyperliquid_fills [hlOpenFill, hlCloseFill] 10 0
      = [{ symbol := "ETH-USDC", side := "BUY", entry_price := 2000, exit_price := 2100,
           quantity := 1, leverage := 10, fees := 1, pnl_usd := 100, pnl_percent := 50,
           entry_time := T1, exit_time := T2, exchange := "hyperliquid" }] := by
  decide

/-- C6: `match_entry_exit_pairs` rewrites a consecutive (exit, entry) pair on
the same symbol — first record with nonzero pnl, second with zero pnl — so
that the first record's date becomes its exit_date, the second record's date
becomes its date, its entry price becomes its exit price, the second
record's entry price becomes its entry price, and (whenever the corrected
entry price, size and leverage are positive) its pnl_pct is recomputed from
the corrected entry price. -/
theorem C6_pair_repair (a b : TradeDict) (rest : List TradeDict)
    (ha : a.pnl_usd.getD 0 ≠ 0) (hb : b.pnl_usd.getD 0 = 0) (hs : b.symbol = a.symbol) :
    match_entry_exit_pairs (a :: b :: rest) = updatePair a b :: match_entry_exit_pairs rest
    ∧ (updatePair a b).date = b.date
    ∧ (updatePair a b).exit_date = a.date
    ∧ (updatePair a b).entry = b.entry
    ∧ (updatePair a b).exit = a.entry
    ∧ (0 < b.entry.getD 0 → 0 < a.size.getD 0 → 0 < a.leverage.getD 1 →
        (updatePair a b).pnl_pct
          = some (a.pnl_usd.getD 0 * 100 * a.leverage.getD 1
              / (b.entry.getD 0 * a.size.getD 0))) := by
  refine ⟨?_, ?_, ?_, ?_, ?_, ?_⟩
  · simp only [match_entry_exit_pairs]
    rw [if_pos ha, if_pos ⟨hb, hs⟩]
  · simp only [updatePair]
    split <;> rfl
  · simp only [updatePair]
    split <;> rfl
  · simp only [updatePair]
    split <;> rfl
  · simp only [updatePair]
    split <;> rfl
  · intro h1 h2 h3
    simp only [updatePair]
    rw [if_pos ⟨h1, h2, h3⟩]
    have := pnl_ratio_formula (a.pnl_usd.getD 0) (b.entry.getD 0 * a.size.getD 0)
      (a.leverage.getD 1)
    simp only []
    rw [this]

/-- Witness for C6: the concrete pair of the spec scenario is rewritten to a
single record with entry 2000, exit 2050, date T1 and exit_date T2. -/
theorem C6_witness :
    match_entry_exit_pairs [pairExitRec, pairEntryRec]
      = [{ pairExitRec with
           entry := some 2000
           exit := some 2050
           date := some T1
           exit_date := some T2 }] := by
  have h := C6_pair_repair pairExitRec pairEntryRec [] (by decide) (by decide) (by decide)
  rw [h.1]
  decide

/-- C8: every Bybit closed-PnL record processed into a trade gets
`fees = (cumEntryValue + cumExitValue) * 0.0006` and (when entry value and
leverage are positive) `pnl_pct = closedPnl / (avgEntryPrice * qty /
leverage) * 100`, each rounded by the client's `round_value`. -/
theorem C8_bybit_fee_and_pnl (now : ℕ) (r : BybitRecord) (c : CalcFields)
    (h : calculate_bybit_trade_fields now r = some c) :
    c.fees = roundValue ((r.cumEntryValue + r.cumExitValue) * (6 / 10000)) 8
    ∧ (0 < r.avgEntryPrice * r.qty → 0 < r.leverage →
        c.pnl_pct = roundValue (r.closedPnl * 100 * r.leverage
          / (r.avgEntryPrice * r.qty)) 4) := by
  simp only [calculate_bybit_trade_fields] at h
  by_cases h1 : r.avgEntryPrice = 0 ∨ r.qty = 0
  · rw [if_pos h1] at h
    exact absurd h (by simp)
  · rw [if_neg h1] at h
    obtain rfl := Option.some.inj h
    refine ⟨rfl, ?_⟩
    intro hpq hl
    show roundValue
      (if 0 < r.avgEntryPrice * r.qty ∧ 0 < r.leverage then
        r.closedPnl / (r.avgEntryPrice * r.qty / r.leverage) * 100
      else 0) 4 = _
    rw [if_pos ⟨hpq, hl⟩, pnl_ratio_formula]

/-- Witness for C8: the scenario record (avgEntryPrice 30000, avgExitPrice
29500, qty 0.2, closedPnl −100, leverage 5, cumEntryValue 6000,
cumExitValue 5900) yields fees 7.14 and pnl_pct −8.3333. -/
theorem C8_witness :
    (calculate_bybit_trade_fields 0 bybitScenarioRec).map (fun c => c.fees)
        = some (357/50)
    ∧ (calculate_bybit_trade_fields 0 bybitScenarioRec).map (fun c => c.pnl_pct)
        = some (-(83333/10000)) := by
  cases h : calculate_bybit_trade_fields 0 bybitScenarioRec with
  | none => exact absurd h (by decide)
  | some c =>
    have hf := C8_bybit_fee_and_pnl 0 bybitScenarioRec c h
    have h2 := hf.2 (by norm_num [bybitScenarioRec]) (by norm_num [bybitScenarioRec])
    constructor
    · show some c.fees = _
      rw [hf.1]
      decide
    · show some c.pnl_pct = _
      rw [h2]
      decide

/-- Counterexample to C1: a Blofin trade with quantity 0 (but valid prices
and nonzero pnl) is not dropped by the prepare layer; it is emitted with
`quantity = 0`, contradicting `quantity > 0`. -/
theorem C1_counterexample :
    (prepare_trades_for_supabase [blofinZeroSizeTrade] none []).map (fun t => t.quantity)
        = [0]
    ∧ ¬ (0 : ℚ) > 0 := by
  decide

/-- Counterexample to C2: for a Binance position whose fills carry
commissions +1 and −2, the emitted fees are |1 + (−2)| = 1, not the claimed
sum of absolute values |1| + |−2| = 3. -/
theorem C2_counterexample :
    ((aggregate_binance_trades [binExitFill, binEntryFill] []).filterMap
        (calculate_binance_trade_fields 0)).map (fun c => c.fees) = [1]
    ∧ ([binExitFill, binEntryFill].map (fun f => |f.commission|)).sum = 3
    ∧ (1 : ℚ) ≠ 3 := by
  decide

/-- Counterexample to C3: a Blofin trade carrying leverage 125 > 0 is not
used verbatim — the clamp `normalize_numeric_value(·, 100)` zeroes it — and
for a trade whose recompute denominator is zero (quantity 0) the emitted
pnl_percent is the carried pnl_pct 12.5, not 0. -/
theorem C3_counterexample :
    (prepare_trades_for_supabase [blofinLev125Trade] none []).map (fun t => t.leverage)
        = [0]
    ∧ (0 : ℚ) ≠ 125
    ∧ (prepare_trades_for_supabase [blofinZeroSizeTrade] none []).map
        (fun t => t.pnl_percent) = [some (25/2)]
    ∧ some ((25 : ℚ)/2) ≠ some (0 : ℚ) := by
  decide

/-- Counterexample to C4: the Blofin prepare layer clamps leverage at 100,
not 125 — input 110 is zeroed even though the claimed clamp (125) would
return it unchanged. -/
theorem C4_counterexample :
    (prepare_trades_for_supabase [blofinLev110Trade] none []).map (fun t => t.leverage)
        = [0]
    ∧ normalize_numeric_value (.finite 110) 125 = 110
    ∧ (0 : ℚ) ≠ 110 := by
  decide

/-- Counterexample to C7: the Blofin pipeline of the scheduler drops the
exchange-provided identifiers (orderId 778 of the position's first fill) and
assigns the positional id "blofin-0" instead. -/
theorem C7_counterexample :
    (aggregate_fills_by_order [blofinExitFill, blofinEntryFill] []).map
        (fun a => a.orderId) = ["778"]
    ∧ (normalize_calculated_blofin_trades
        ((aggregate_fills_by_order [blofinExitFill, blofinEntryFill] []).filterMap
          (calculate_trade_fields [("SOL-USDT", 1)] 0)) "blofin" 0).map
        (fun t => t.exchange_trade_id) = ["blofin-0"]
    ∧ ("blofin-0" : String) ≠ "778" := by
  decide

/-- C9: a sync job whose body raises an uncaught error ends with the
connection marked `failed` and `last_error` set to the message truncated to
at most 500 characters (kept verbatim when short enough), and the error is
not re-raised to the scheduler: in a scheduler pass over two connections
where the first job errors, the second is still synced to `success`. -/
theorem C9_failed_sync (db : ConnDB) (connection_id e : String) (now : ℕ) (c : ConnState)
    (hfound : db.lookup connection_id = some c) :
    (sync_connection db connection_id (Except.error e) now).lookup connection_id
      = some { c with last_sync_status := "failed", last_error := some (pyTruncate e 500) }
    ∧ (pyTruncate e 500).length ≤ 500
    ∧ (e.length ≤ 500 → pyTruncate e 500 = e)
    ∧ ∀ (id2 : String) (c2 : ConnState) (trades : List NormCalcTrade),
        id2 ≠ connection_id →
        c.last_sync_status ≠ "in_progress" → c2.last_sync_status ≠ "in_progress" →
        (sync_all_connections [(connection_id, c), (id2, c2)]
            (fun _ => Except.ok ())
            (fun i => if i = connection_id then Except.error e else Except.ok trades)
            now).lookup id2
          = some { c2 with last_sync_status := "success", last_sync_time := some now,
                           last_error := none } := by
  refine ⟨?_, ?_, ?_, ?_⟩
  · simp only [sync_connection, hfound]
    rw [lookup_updateAssoc_self, lookup_updateAssoc_self, hfound]
    rfl
  · show (e.data.take 500).length ≤ 500
    rw [List.length_take]
    exact min_le_left _ _
  · intro hlen
    show String.mk (e.data.take 500) = e
    rw [List.take_of_length_le hlen]
  · intro id2 c2 trades hne hc1 hc2
    have hlook0 : List.lookup connection_id [(connection_id, c), (id2, c2)] = some c := by
      simp [List.lookup]
    have hlook2 : List.lookup id2 [(connection_id, c), (id2, c2)] = some c2 := by
      have hbeq : (id2 == connection_id) = false := beq_eq_false_iff_ne.mpr hne
      simp [List.lookup, hbeq]
    simp only [sync_all_connections, List.foldl]
    rw [if_neg hc1, if_neg hc2]
    simp only [sync_single_connection_async]
    rw [if_neg hne]
    simp only [if_true]
    simp only [sync_connection, hlook0]
    have hlook2a :
        List.lookup id2
          (updateAssoc (updateAssoc [(connection_id, c), (id2, c2)] connection_id
            (fun c => { c with last_sync_status := "in_progress" })) connection_id
            (fun c => { c with last_sync_status := "failed",
                               last_error := some (pyTruncate e 500) })) = some c2 := by
      rw [lookup_updateAssoc_ne _ _ _ _ hne, lookup_updateAssoc_ne _ _ _ _ hne, hlook2]
    simp only [hlook2a]
    rw [lookup_updateAssoc_self, lookup_updateAssoc_self, hlook2a]
    rfl

/-- Witness for C9: a concrete failing job on connection "c1" ends failed
with the verbatim short message, and the follow-up connection "c2" still
syncs to success. -/
theorem C9_witness :
    (sync_connection [("c1", idleConn)] "c1" (Except.error "boom") 7).lookup "c1"
      = some { idleConn with last_sync_status := "failed", last_error := some "boom" }
    ∧ (sync_all_connections [("c1", idleConn), ("c2", idleConn)]
        (fun _ => Except.ok ())
        (fun i => if i = "c1" then Except.error "boom" else Except.ok [])
        7).lookup "c2"
      = some { idleConn with
               last_sync_status := "success"
               last_sync_time := some 7
               last_error := none } := by
  have h := C9_failed_sync [("c1", idleConn)] "c1" "boom" 7 idleConn (by decide)
  constructor
  · rw [h.1]
    decide
  · have h4 := C9_failed_sync [("c1", idleConn), ("c2", idleConn)] "c1" "boom" 7 idleConn
      (by decide)
    exact h4.2.2.2 "c2" idleConn [] (by decide) (by decide) (by decide)

/-- C10: when a Close fill partially closes an accumulated Hyperliquid
position (close size strictly below the remaining size), the emitted trade
carries all accumulated entry fees plus the close fee, and the position's
fee accumulator is reset to zero, so later closes of the same position add
no entry fees again. -/
theorem C10_partial_close_fee_reset (lev : ℚ) (now : ℕ) (st : HlState) (fill : HlFill)
    (calcd : HlCalc) (pos : HlPos)
    (hcalc : calculate_hyperliquid_trade_fields lev now fill = some calcd)
    (hopen : strContains fill.dir "Open" = false)
    (hclose : strContains fill.dir "Close" = true)
    (hpos : st.positions.lookup (pyUpper fill.coin ++ "_" ++ calcd.side) = some pos)
    (hsize : 0 < pos.total_size)
    (hbelow : calcd.size < pos.total_size) :
    ∃ tr, (hlStep lev now st fill).completed = st.completed ++ [tr]
      ∧ tr.fees = roundTo (pos.fees + calcd.fees) 8
      ∧ (hlStep lev now st fill).positions.lookup (pyUpper fill.coin ++ "_" ++ calcd.side)
          = some { pos with
                   total_size := pos.total_size - calcd.size
                   total_cost := pos.total_cost / pos.total_size
                     * (pos.total_size - calcd.size)
                   fees := 0 } := by
  have hrem : ¬ (pos.total_size - calcd.size ≤ 0) := by linarith
  simp only [hlStep, hcalc, hopen, hclose, hpos, Bool.false_eq_true, if_false, if_true,
    if_pos hsize, if_neg hrem]
  refine ⟨_, rfl, rfl, ?_⟩
  rw [lookup_updateAssoc_self, hpos]
  rfl

/-- Witness for C10: closing half of a position with accumulated entry fees
3 by a close fill with fee 0.25 emits a trade with fees 3.25 and resets the
stored fee accumulator to 0; in the four-fill scenario the two emitted
trades carry fees 3.25 and 0.3. -/
theorem C10_witness :
    (∃ tr, (hlStep 10 0 ⟨[("ETH_BUY", hlAccumPos)], []⟩ hlHalfCloseFill).completed
          = [] ++ [tr]
        ∧ tr.fees = roundTo (hlAccumPos.fees + hlHalfCloseCalc.fees) 8
        ∧ (hlStep 10 0 ⟨[("ETH_BUY", hlAccumPos)], []⟩ hlHalfCloseFill).positions.lookup
            "ETH_BUY"
          = some { hlAccumPos with total_size := 1, total_cost := 100, fees := 0 })
    ∧ (aggregate_hyperliquid_fills [hlO1, hlO2, hlC1, hlC2] 10 0).map (fun t => t.fees)
        = [13/4, 3/10] := by
  constructor
  · have h := C10_partial_close_fee_reset 10 0 ⟨[("ETH_BUY", hlAccumPos)], []⟩
      hlHalfCloseFill hlHalfCloseCalc hlAccumPos (by decide) (by decide) (by decide)
      (by decide) (by decide) (by decide)
    have hkey : pyUpper hlHalfCloseFill.coin ++ "_" ++ hlHalfCloseCalc.side = "ETH_BUY" := by
      decide
    rw [hkey] at h
    obtain ⟨tr, h1, h2, h3⟩ := h
    refine ⟨tr, h1, h2, ?_⟩
    rw [h3]
    decide
  · decide

theorem normCalc_map_id (eid : String) (now : ℕ) (l : List (ℕ × TradeDict)) :
    (l.filterMap (normalizeCalculatedOne eid now)).map (fun t => t.exchange_trade_id)
      = (l.filter (fun p => decide (¬(p.2.entry.getD 0 = 0 ∨ p.2.exit.getD 0 = 0)))).map
          (fun p => "blofin-" ++ toString p.1) := by
  induction l with
  | nil => rfl
  | cons p l ih =>
    by_cases h : p.2.entry.getD 0 = 0 ∨ p.2.exit.getD 0 = 0
    · have hnone : normalizeCalculatedOne eid now p = none := by
        simp only [normalizeCalculatedOne]
        rw [if_pos h]
      rw [List.filterMap_cons_none hnone,
        List.filter_cons_of_neg (by simp only [decide_eq_true_eq]; exact not_not_intro h), ih]
    · have hsome : ∃ r, normalizeCalculatedOne eid now p = some r
          ∧ r.exchange_trade_id = "blofin-" ++ toString p.1 := by
        simp only [normalizeCalculatedOne]
        rw [if_neg h]
        exact ⟨_, rfl, rfl⟩
      obtain ⟨r, hr, hid⟩ := hsome
      rw [List.filterMap_cons_some hr, List.filter_cons_of_pos (by simp only [decide_eq_true_eq]; exact h)]
      simp only [List.map_cons, hid, ih]

/-- C7 (amended): the scheduler's Blofin normalizer assigns positional ids
"blofin-{i}" determined only by each kept record's index in the input list
(the exchange-provided identifiers are ignored), and deduplicating a run
against its own ids — as a second sync of the identical history would —
keeps nothing. -/
theorem C7_amended (ts : List TradeDict) (eid : String) (now : ℕ) :
    (normalize_calculated_blofin_trades ts eid now).map (fun t => t.exchange_trade_id)
      = (ts.enum.filter
          (fun p => decide (¬(p.2.entry.getD 0 = 0 ∨ p.2.exit.getD 0 = 0)))).map
          (fun p => "blofin-" ++ toString p.1)
    ∧ deduplicate_trades (normalize_calculated_blofin_trades ts eid now)
        ((normalize_calculated_blofin_trades ts eid now).map (fun t => t.exchange_trade_id))
      = [] := by
  constructor
  · exact normCalc_map_id eid now ts.enum
  · apply List.filter_eq_nil_iff.mpr
    intro t ht
    simp only [decide_eq_true_eq, Decidable.not_not]
    exact List.mem_map_of_mem (fun t => t.exchange_trade_id) ht

theorem prepareBlofinOne_shape (uid : Option String) (dl : List (String × ℚ))
    (a : TradeDict) (t : PreparedTrade) (h : prepareBlofinOne uid dl a = some t) :
    t.entry_price ≠ 0 ∧ (∃ v, t.exit_price = some v ∧ v ≠ 0)
    ∧ (∃ w, t.pnl_usd = some w ∧ w ≠ 0) := by
  simp only [prepareBlofinOne] at h
  by_cases h1 : roundTo (normOptQ a.entry 1000000) 8 = 0
      ∨ roundTo (normOptQ a.exit 1000000) 8 = 0
  · rw [if_pos h1] at h
    exact absurd h (by simp)
  · rw [if_neg h1] at h
    by_cases h2 : (if a.pnl_usd.isSome then roundTo (normOptQ a.pnl_usd 100000) 2 else 0) = 0
    · rw [if_pos h2] at h
      exact absurd h (by simp)
    · rw [if_neg h2] at h
      obtain rfl := Option.some.inj h
      push_neg at h1
      refine ⟨h1.1, ?_, ?_⟩
      · cases hex : a.exit with
        | none =>
          exfalso
          apply h1.2
          rw [hex]
          decide
        | some v =>
          rw [hex] at h1
          exact ⟨_, by simp, h1.2⟩
      · exact ⟨_, by rw [if_pos h2], h2⟩

theorem prepareBinanceOne_shape (uid : Option String) (dl : List (String × ℚ)) (now : ℕ)
    (bp : BinancePosition) (t : PreparedTrade) (h : prepareBinanceOne uid dl now bp = some t) :
    t.entry_price ≠ 0 ∧ (∃ v, t.exit_price = some v ∧ v ≠ 0)
    ∧ (∃ w, t.pnl_usd = some w ∧ w ≠ 0) := by
  cases hc : calculate_binance_trade_fields now bp with
  | none => rw [prepareBinanceOne, hc] at h; exact absurd h (by simp)
  | some cf =>
    simp only [prepareBinanceOne, hc] at h
    by_cases h1 : roundTo (normQ cf.entry 1000000) 8 = 0
        ∨ roundTo (normQ cf.exit 1000000) 8 = 0
    · rw [if_pos h1] at h
      exact absurd h (by simp)
    · rw [if_neg h1] at h
      by_cases h2 : roundTo (normQ cf.pnl_usd 100000) 2 = 0
      · rw [if_pos h2] at h
        exact absurd h (by simp)
      · rw [if_neg h2] at h
        obtain rfl := Option.some.inj h
        push_neg at h1
        exact ⟨h1.1, ⟨_, rfl, h1.2⟩, ⟨_, rfl, h2⟩⟩

theorem prepareBybitOne_shape (uid : Option String) (now : ℕ)
    (r : BybitRecord) (t : PreparedTrade) (h : prepareBybitOne uid now r = some t) :
    t.entry_price ≠ 0 ∧ (∃ v, t.exit_price = some v ∧ v ≠ 0) := by
  cases hc : calculate_bybit_trade_fields now r with
  | none => rw [prepareBybitOne, hc] at h; exact absurd h (by simp)
  | some cf =>
    simp only [prepareBybitOne, hc] at h
    by_cases h1 : roundTo (normQ cf.entry 1000000) 8 = 0
        ∨ roundTo (normQ cf.exit 1000000) 8 = 0
    · rw [if_pos h1] at h
      exact absurd h (by simp)
    · rw [if_neg h1] at h
      obtain rfl := Option.some.inj h
      push_neg at h1
      exact ⟨h1.1, ⟨_, rfl, h1.2⟩⟩

theorem prepareHyperliquidOne_shape (uid : Option String)
    (tr : HlTrade) (t : PreparedTrade) (h : prepareHyperliquidOne uid tr = some t) :
    t.entry_price ≠ 0 ∧ (∃ v, t.exit_price = some v ∧ v ≠ 0) := by
  simp only [prepareHyperliquidOne] at h
  by_cases h1 : roundTo (normQ tr.entry_price 1000000) 8 = 0
      ∨ roundTo (normQ tr.exit_price 1000000) 8 = 0
  · rw [if_pos h1] at h
    exact absurd h (by simp)
  · rw [if_neg h1] at h
    obtain rfl := Option.some.inj h
    push_neg at h1
    exact ⟨h1.1, ⟨_, rfl, h1.2⟩⟩

/-- C1 (amended): every trade emitted by a prepare layer has a nonzero
entry price and a nonzero exit price — a record with a zero clamped price is
dropped, but quantity is never validated — and a record with zero pnl_usd is
additionally dropped for Binance and Blofin while Bybit and Hyperliquid keep
every record whose clamped prices are nonzero regardless of pnl. -/
theorem C1_amended (bl : List TradeDict) (bn : List BinancePosition)
    (byb : List BybitRecord) (hl : List HlTrade) (uid : Option String)
    (dl : List (String × ℚ)) (now : ℕ) :
    (∀ t ∈ prepare_trades_for_supabase bl uid dl,
        t.entry_price ≠ 0 ∧ (∃ v, t.exit_price = some v ∧ v ≠ 0)
        ∧ (∃ w, t.pnl_usd = some w ∧ w ≠ 0))
    ∧ (∀ t ∈ prepare_binance_trades_for_supabase bn uid dl now,
        t.entry_price ≠ 0 ∧ (∃ v, t.exit_price = some v ∧ v ≠ 0)
        ∧ (∃ w, t.pnl_usd = some w ∧ w ≠ 0))
    ∧ (∀ t ∈ prepare_bybit_trades_for_supabase byb uid now,
        t.entry_price ≠ 0 ∧ (∃ v, t.exit_price = some v ∧ v ≠ 0))
    ∧ (∀ t ∈ prepare_hyperliquid_trades_for_supabase hl uid,
        t.entry_price ≠ 0 ∧ (∃ v, t.exit_price = some v ∧ v ≠ 0))
    ∧ (∀ (r : BybitRecord) (rest : List BybitRecord) (cf : CalcFields),
        calculate_bybit_trade_fields now r = some cf →
        roundTo (normQ cf.entry 1000000) 8 ≠ 0 →
        roundTo (normQ cf.exit 1000000) 8 ≠ 0 →
        (prepare_bybit_trades_for_supabase (r :: rest) uid now).length
          = (prepare_bybit_trades_for_supabase rest uid now).length + 1)
    ∧ (∀ (tr : HlTrade) (rest : List HlTrade),
        roundTo (normQ tr.entry_price 1000000) 8 ≠ 0 →
        roundTo (normQ tr.exit_price 1000000) 8 ≠ 0 →
        (prepare_hyperliquid_trades_for_supabase (tr :: rest) uid).length
          = (prepare_hyperliquid_trades_for_supabase rest uid).length + 1) := by
  refine ⟨?_, ?_, ?_, ?_, ?_, ?_⟩
  · intro t ht
    obtain ⟨a, _, ha⟩ := List.mem_filterMap.mp ht
    exact prepareBlofinOne_shape uid dl a t ha
  · intro t ht
    obtain ⟨a, _, ha⟩ := List.mem_filterMap.mp ht
    exact prepareBinanceOne_shape uid dl now a t ha
  · intro t ht
    obtain ⟨a, _, ha⟩ := List.mem_filterMap.mp ht
    exact prepareBybitOne_shape uid now a t ha
  · intro t ht
    obtain ⟨a, _, ha⟩ := List.mem_filterMap.mp ht
    exact prepareHyperliquidOne_shape uid a t ha
  · intro r rest cf hc he hx
    have hf : ∃ t, prepareBybitOne uid now r = some t := by
      simp only [prepareBybitOne, hc]
      rw [if_neg (by push_neg; exact ⟨he, hx⟩)]
      exact ⟨_, rfl⟩
    obtain ⟨t, ht⟩ := hf
    show (List.filterMap _ (r :: rest)).length = _
    rw [List.filterMap_cons_some ht]
    rfl
  · intro tr rest he hx
    have hf : ∃ t, prepareHyperliquidOne uid tr = some t := by
      simp only [prepareHyperliquidOne]
      rw [if_neg (by push_neg; exact ⟨he, hx⟩)]
      exact ⟨_, rfl⟩
    obtain ⟨t, ht⟩ := hf
    show (List.filterMap _ (tr :: rest)).length = _
    rw [List.filterMap_cons_some ht]
    rfl

/-- Witness for C1: a Bybit record with zero closed PnL but valid prices is
kept by the Bybit prepare layer, and a kept Blofin trade satisfies the
nonzero-price invariants. -/
theorem C1_witness :
    (prepare_bybit_trades_for_supabase [bybitZeroPnlRec] none 0).length
        = (prepare_bybit_trades_for_supabase [] none 0).length + 1
    ∧ ∀ t ∈ prepare_trades_for_supabase [blofinLev20Trade] none [],
        t.entry_price ≠ 0 ∧ (∃ v, t.exit_price = some v ∧ v ≠ 0)
        ∧ (∃ w, t.pnl_usd = some w ∧ w ≠ 0) := by
  constructor
  · cases hc : calculate_bybit_trade_fields 0 bybitZeroPnlRec with
    | none => exact absurd hc (by decide)
    | some cf =>
      exact (C1_amended [] [] [] [] none [] 0).2.2.2.2.1 bybitZeroPnlRec [] cf hc
        (by
          have : cf = CalcFields.mk T1 (some T2) "BTC-USDT" "BUY" 30000 30000 (1/5) 5
              (36/5) 0 0 := by
            have := hc
            rw [show calculate_bybit_trade_fields 0 bybitZeroPnlRec
                = some (CalcFields.mk T1 (some T2) "BTC-USDT" "BUY" 30000 30000 (1/5) 5
                  (36/5) 0 0) from by decide] at this
            exact (Option.some.inj this).symm
          rw [this]
          decide)
        (by
          have : cf = CalcFields.mk T1 (some T2) "BTC-USDT" "BUY" 30000 30000 (1/5) 5
              (36/5) 0 0 := by
            have := hc
            rw [show calculate_bybit_trade_fields 0 bybitZeroPnlRec
                = some (CalcFields.mk T1 (some T2) "BTC-USDT" "BUY" 30000 30000 (1/5) 5
                  (36/5) 0 0) from by decide] at this
            exact (Option.some.inj this).symm
          rw [this]
          decide)
  · exact (C1_amended [blofinLev20Trade] [] [] [] none [] 0).1

theorem calcBinance_fees (now : ℕ) (bp : BinancePosition) (cf : CalcFields)
    (h : calculate_binance_trade_fields now bp = some cf) :
    cf.fees = roundValue |bp.commission| 8 := by
  simp only [calculate_binance_trade_fields] at h
  by_cases h1 : bp.entryPrice = 0 ∨ bp.qty = 0
  · rw [if_pos h1] at h
    exact absurd h (by simp)
  · rw [if_neg h1] at h
    obtain rfl := Option.some.inj h
    rfl

/-- C2 (amended): every position emitted by the Binance aggregator is built
from one collected fill group; its quantity is the sum of qty over the
group's entry fills (realizedPnl = 0), its realized PnL and commission are
the sums over all fills of the group, its entry price is the size-weighted
average over the entry fills whenever their total size is positive, and the
calculated fees are the rounded absolute value of the summed (signed)
commission — not the sum of absolute values. -/
theorem C2_amended (trades : List BinanceFill) (lmap : List (String × ℚ)) (now : ℕ) :
    (∀ p ∈ aggregate_binance_trades trades lmap,
        ∃ g ∈ collectBinancePositions trades, buildBinancePosition lmap g = some p)
    ∧ ∀ (g : List BinanceFill) (p : BinancePosition),
        buildBinancePosition lmap g = some p →
        p.qty = ((g.filter (fun f => decide (f.realizedPnl = 0))).map (fun f => f.qty)).sum
        ∧ p.realizedPnl = (g.map (fun f => f.realizedPnl)).sum
        ∧ p.commission = (g.map (fun f => f.commission)).sum
        ∧ (0 < ((g.filter (fun f => decide (f.realizedPnl = 0))).map (fun f => f.qty)).sum →
            p.entryPrice
              = ((g.filter (fun f => decide (f.realizedPnl = 0))).map
                  (fun f => f.price * f.qty)).sum
                / ((g.filter (fun f => decide (f.realizedPnl = 0))).map
                    (fun f => f.qty)).sum)
        ∧ ∀ cf, calculate_binance_trade_fields now p = some cf →
            cf.fees = roundValue |(g.map (fun f => f.commission)).sum| 8 := by
  constructor
  · intro p hp
    obtain ⟨g, hg, hbuild⟩ := List.mem_filterMap.mp hp
    exact ⟨g, hg, hbuild⟩
  · intro g p h
    cases g with
    | nil => exact absurd h (by simp [buildBinancePosition])
    | cons first rest =>
      simp only [buildBinancePosition] at h
      obtain rfl := Option.some.inj h
      refine ⟨rfl, rfl, rfl, ?_, ?_⟩
      · intro hpos
        show (if 0 < _ then _ else _) = _
        rw [if_pos hpos]
      · intro cf hcf
        rw [calcBinance_fees now _ cf hcf]

/-- Witness for C2: the spec's Binance round-trip scenario (entry BUY 0.1 @
50000 commission 1.0, exit SELL 0.1 @ 51000 commission 1.02, pnl 100)
aggregates to quantity 0.1, realized PnL 100, commission 2.02 and entry
price 50000. -/
theorem C2_witness :
    ∃ p, buildBinancePosition [("BTCUSDT", (10:ℚ))] [binScenExit, binScenEntry] = some p
      ∧ p.qty = 1/10 ∧ p.realizedPnl = 100 ∧ p.commission = 101/50
      ∧ p.entryPrice = 50000 := by
  cases hb : buildBinancePosition [("BTCUSDT", (10:ℚ))] [binScenExit, binScenEntry] with
  | none => exact absurd hb (by decide)
  | some p =>
    obtain ⟨hq, hpnl, hcom, hentry, _⟩ :=
      (C2_amended [binScenExit, binScenEntry] [("BTCUSDT", 10)] 0).2 _ p hb
    refine ⟨p, rfl, ?_, ?_, ?_, ?_⟩
    · rw [hq]; decide
    · rw [hpnl]; decide
    · rw [hcom]; decide
    · rw [hentry (by decide)]; decide

/-- C3 (amended): a carried leverage > 0 is used after clamping
(`normalize_numeric_value(·, 100)` for Blofin — so values above 100 become
0 — and `·, 125` for Binance) and rounding to 2 dp; otherwise the symbol's
override is used verbatim when present, else 1.0; pnl_percent is recomputed
as pnl·100·leverage/(entry·quantity) only when entry price, quantity and
leverage are all positive, and otherwise falls back to the carried pnl_pct
(the field is absent, not 0, when there is none). -/
theorem C3_amended (uid : Option String) (dl : List (String × ℚ)) (a : TradeDict)
    (t : PreparedTrade) (h : prepareBlofinOne uid dl a = some t) :
    (∀ l, a.leverage = some l → 0 < l → t.leverage = roundTo (normQ l 100) 2)
    ∧ ((a.leverage = none ∨ ∃ l, a.leverage = some l ∧ ¬ 0 < l) →
        (∀ d, dl.lookup (pyUpper a.symbol) = some d → t.leverage = d)
        ∧ (dl.lookup (pyUpper a.symbol) = none → t.leverage = 1))
    ∧ (∀ w, t.pnl_usd = some w →
        0 < t.entry_price → 0 < t.quantity → 0 < t.leverage →
        t.pnl_percent = some (roundTo (w * 100 * t.leverage
            / (t.entry_price * t.quantity)) 4))
    ∧ (¬(0 < t.entry_price ∧ 0 < t.quantity ∧ 0 < t.leverage) →
        (∀ q, a.pnl_pct = some q → t.pnl_percent = some (roundTo (normQ q 100000) 4))
        ∧ (a.pnl_pct = none → t.pnl_percent = none))
    ∧ (∀ (bp : BinancePosition) (t2 : PreparedTrade) (cf : CalcFields) (now : ℕ),
        prepareBinanceOne uid dl now bp = some t2 →
        calculate_binance_trade_fields now bp = some cf →
        0 < cf.leverage → t2.leverage = roundTo (normQ cf.leverage 125) 2) := by
  simp only [prepareBlofinOne] at h
  by_cases hs1 : roundTo (normOptQ a.entry 1000000) 8 = 0
      ∨ roundTo (normOptQ a.exit 1000000) 8 = 0
  · rw [if_pos hs1] at h
    exact absurd h (by simp)
  · rw [if_neg hs1] at h
    by_cases hs2 : (if a.pnl_usd.isSome then roundTo (normOptQ a.pnl_usd 100000) 2 else 0) = 0
    · rw [if_pos hs2] at h
      exact absurd h (by simp)
    · rw [if_neg hs2] at h
      obtain rfl := Option.some.inj h
      refine ⟨?_, ?_, ?_, ?_, ?_⟩
      · intro l hl hlpos
        dsimp only
        rw [hl]
        dsimp only
        rw [if_pos hlpos]
      · intro hcase
        constructor
        · intro d hd
          dsimp only
          rcases hcase with hnone | ⟨l, hl, hlneg⟩
          · rw [hnone, hd]
          · rw [hl]
            dsimp only
            rw [if_neg hlneg, hd]
        · intro hd
          dsimp only
          rcases hcase with hnone | ⟨l, hl, hlneg⟩
          · rw [hnone, hd]
          · rw [hl]
            dsimp only
            rw [if_neg hlneg, hd]
      · intro w hw h1 h2 h3
        dsimp only at hw ⊢
        rw [if_pos hs2] at hw
        obtain rfl := Option.some.inj hw
        rw [if_pos ⟨h1, h2, h3⟩, pnl_ratio_formula]
      · intro hn
        constructor
        · intro q hq
          dsimp only
          rw [if_neg hn, hq]
          rfl
        · intro hq
          dsimp only
          rw [if_neg hn, hq]
          rfl
      · intro bp t2 cf now hb hc hlev
        simp only [prepareBinanceOne, hc] at hb
        by_cases hb1 : roundTo (normQ cf.entry 1000000) 8 = 0
            ∨ roundTo (normQ cf.exit 1000000) 8 = 0
        · rw [if_pos hb1] at hb
          exact absurd hb (by simp)
        · rw [if_neg hb1] at hb
          by_cases hb2 : roundTo (normQ cf.pnl_usd 100000) 2 = 0
          · rw [if_pos hb2] at hb
            exact absurd hb (by simp)
          · rw [if_neg hb2] at hb
            obtain rfl := Option.some.inj hb
            dsimp only
            rw [if_pos hlev]

/-- Witness for C3: a kept Blofin trade carrying leverage 20 resolves to
leverage 20 (the clamp keeps values at or below 100), and its pnl_percent is
recomputed to 600 = 30·100·20/(100·1). -/
theorem C3_witness :
    (prepareBlofinOne none [] blofinLev20Trade).map (fun t => t.leverage) = some 20
    ∧ (prepareBlofinOne none [] blofinLev20Trade).map (fun t => t.pnl_percent)
        = some (some 600) := by
  have h : prepareBlofinOne none [] blofinLev20Trade = some blofinLev20Prep := by decide
  have hc := C3_amended none [] blofinLev20Trade blofinLev20Prep h
  have hl := hc.1 20 (by decide) (by norm_num)
  have hp := hc.2.2.1 30 (by decide) (by decide) (by decide) (by decide)
  constructor
  · rw [h]
    show some blofinLev20Prep.leverage = some (20:ℚ)
    rw [hl]
    decide
  · rw [h]
    show some blofinLev20Prep.pnl_percent = some (some (600:ℚ))
    rw [hp]
    decide

/-- C4 (amended): `normalize_numeric_value` returns the input unchanged
exactly when it is finite, inside the open interval (−1e15, 1e15) and of
absolute value at most the field maximum, and returns 0 otherwise (also for
NaN and ±inf); the Blofin prepare layer applies it with maxima 1e6 for
prices and sizes, 1e5 for pnl and fees, and 100 — not 125 — for leverage
(125 is the Binance prepare layer's leverage maximum). -/
theorem C4_amended :
    (∀ x m : ℚ, normalize_numeric_value (.finite x) m
        = if -(10 ^ 15 : ℚ) < x ∧ x < 10 ^ 15 ∧ |x| ≤ m then x else 0)
    ∧ (∀ m : ℚ, normalize_numeric_value .nan m = 0)
    ∧ (∀ m : ℚ, normalize_numeric_value .inf m = 0)
    ∧ (∀ m : ℚ, normalize_numeric_value .ninf m = 0)
    ∧ (∀ (uid : Option String) (dl : List (String × ℚ)) (a : TradeDict) (t : PreparedTrade),
        prepareBlofinOne uid dl a = some t →
        t.entry_price = roundTo (normOptQ a.entry 1000000) 8
        ∧ t.quantity = roundTo (normOptQ a.size 1000000) 8
        ∧ (∀ w, t.pnl_usd = some w → w = roundTo (normOptQ a.pnl_usd 100000) 2)
        ∧ (∀ l, a.leverage = some l → 0 < l → t.leverage = roundTo (normQ l 100) 2)
        ∧ (∀ f, t.fees = some f → f = roundTo (normOptQ a.fees 100000) 8))
    ∧ (∀ (uid : Option String) (dl : List (String × ℚ)) (now : ℕ) (bp : BinancePosition)
        (t : PreparedTrade) (cf : CalcFields),
        prepareBinanceOne uid dl now bp = some t →
        calculate_binance_trade_fields now bp = some cf →
        0 < cf.leverage → t.leverage = roundTo (normQ cf.leverage 125) 2) := by
  refine ⟨?_, fun _ => rfl, fun _ => rfl, fun _ => rfl, ?_, ?_⟩
  · intro x m
    simp only [normalize_numeric_value]
    by_cases h1 : -(10 ^ 15 : ℚ) < x ∧ x < 10 ^ 15
    · rw [if_neg (not_not_intro h1)]
      by_cases h2 : m < |x|
      · rw [if_pos h2, if_neg]
        push_neg
        intro _ _
        exact h2
      · rw [if_neg h2, if_pos ⟨h1.1, h1.2, not_lt.mp h2⟩]
    · rw [if_pos h1, if_neg]
      intro hcon
      exact h1 ⟨hcon.1, hcon.2.1⟩
  · intro uid dl a t h
    simp only [prepareBlofinOne] at h
    by_cases hs1 : roundTo (normOptQ a.entry 1000000) 8 = 0
        ∨ roundTo (normOptQ a.exit 1000000) 8 = 0
    · rw [if_pos hs1] at h
      exact absurd h (by simp)
    · rw [if_neg hs1] at h
      by_cases hs2 : (if a.pnl_usd.isSome then roundTo (normOptQ a.pnl_usd 100000) 2
          else 0) = 0
      · rw [if_pos hs2] at h
        exact absurd h (by simp)
      · rw [if_neg hs2] at h
        obtain rfl := Option.some.inj h
        refine ⟨rfl, rfl, ?_, ?_, ?_⟩
        · intro w hw
          dsimp only at hw
          rw [if_pos hs2] at hw
          have hsome : a.pnl_usd.isSome = true := by
            by_contra hns
            apply hs2
            simp [Bool.not_eq_true] at hns
            simp [hns]
          rw [if_pos hsome] at hw
          exact (Option.some.inj hw).symm
        · intro l hl hlpos
          dsimp only
          rw [hl]
          dsimp only
          rw [if_pos hlpos]
        · intro f hf
          dsimp only at hf
          cases hfe : a.fees with
          | none =>
            rw [hfe] at hf
            exact absurd hf (by simp)
          | some v =>
            rw [hfe] at hf
            simp only [Option.isSome_some, if_true] at hf
            exact (Option.some.inj hf).symm
  · intro uid dl now bp t cf hb hc hlev
    simp only [prepareBinanceOne, hc] at hb
    by_cases hb1 : roundTo (normQ cf.entry 1000000) 8 = 0
        ∨ roundTo (normQ cf.exit 1000000) 8 = 0
    · rw [if_pos hb1] at hb
      exact absurd hb (by simp)
    · rw [if_neg hb1] at hb
      by_cases hb2 : roundTo (normQ cf.pnl_usd 100000) 2 = 0
      · rw [if_pos hb2] at hb
        exact absurd hb (by simp)
      · rw [if_neg hb2] at hb
        obtain rfl := Option.some.inj hb
        dsimp only
        rw [if_pos hlev]

/-- Witness for C4: applying the amended clamp description to the concrete
kept Blofin trade with leverage 20, the emitted fields are its
`normalize_numeric_value`-clamped, rounded inputs and the leverage clamp is
100-based. -/
theorem C4_witness :
    blofinLev20Prep.entry_price = roundTo (normOptQ blofinLev20Trade.entry 1000000) 8
    ∧ blofinLev20Prep.quantity = roundTo (normOptQ blofinLev20Trade.size 1000000) 8
    ∧ blofinLev20Prep.leverage = roundTo (normQ 20 100) 2 := by
  have h : prepareBlofinOne none [] blofinLev20Trade = some blofinLev20Prep := by decide
  obtain ⟨he, hq, hp, hl, hf⟩ :=
    C4_amended.2.2.2.2.1 none [] blofinLev20Trade blofinLev20Prep h
  exact ⟨he, hq, hl 20 (by decide) (by norm_num)⟩

end Walleto
